import Mathlib

/-!
Verification of the TTL response cache subsystem of `rhoai_mcp`
(`src/rhoai_mcp/utils/cache.py`).

The cache store (a Python `dict[str, tuple[float, Any]]` guarded by a lock)
is modelled as an association list with unique keys from cache-key strings
to entries; wall-clock time and the TTL are modelled as rationals so that
fractional seconds (e.g. a 1.1 second gap) are exact.  The wrapper produced
by the `cached` decorator is a pure state transition on the store which also
reports whether the wrapped function was invoked; sequences of calls are run
by an explicit runner that threads the store and counts invocations.
Exceptions raised by the wrapped function are modelled with `Except`.
-/

namespace RhoaiCache

/-- `config.enable_response_caching` and `config.cache_ttl_seconds`,
the two fields of the external config consulted on every call. -/
structure Config where
  enable_response_caching : Bool
  cache_ttl_seconds : ℚ
deriving DecidableEq

/-- A cache entry: the `(timestamp, value)` tuple stored in `_cache`. -/
structure CacheEntry (V : Type) where
  timestamp : ℚ
  value : V
deriving DecidableEq

/-- The `_cache` dict: an association list from cache-key strings to entries.
Python dict keys are unique; theorems that need uniqueness assume
`(store.map Prod.fst).Nodup`. -/
abbrev Store (V : Type) := List (String × CacheEntry V)

/-- Dict membership test / lookup: `_cache[key]` guarded by `key in _cache`. -/
def lookup {V : Type} (store : Store V) (key : String) : Option (CacheEntry V) :=
  (store.find? (fun kv => kv.1 == key)).map Prod.snd

/-- `del _cache[key]`: removes the entry stored under `key`
(on a store with unique keys this removes exactly one pair). -/
def eraseKey {V : Type} (store : Store V) (key : String) : Store V :=
  store.filter (fun kv => kv.1 != key)

/-- `_cache[key] = entry`: store `entry` under `key`, replacing any
previous entry for that key. -/
def insertKey {V : Type} (store : Store V) (key : String) (e : CacheEntry V) :
    Store V :=
  (key, e) :: eraseKey store key

/-- Python's `":".join(parts)`. -/
def joinColon : List String → String
  | [] => ""
  | [s] => s
  | s :: t :: rest => s ++ ":" ++ joinColon (t :: rest)

/-- Lexicographic order on code-point lists: Python's string ordering. -/
def charListLe : List Char → List Char → Bool
  | [], _ => true
  | _ :: _, [] => false
  | a :: as, b :: bs =>
    if a.toNat < b.toNat then true
    else if b.toNat < a.toNat then false
    else charListLe as bs

/-- Python's `a <= b` on strings: lexicographic by code point. -/
def strLe (a b : String) : Bool := charListLe a.data b.data

/-- Insertion step for sorting keyword arguments by name
(`sorted(kwargs.items())`; dict keys are unique, so ordering by name
alone matches Python's tuple ordering). -/
def insertSorted (p : String × String) :
    List (String × String) → List (String × String)
  | [] => [p]
  | q :: rest => if strLe p.1 q.1 then p :: q :: rest else q :: insertSorted p rest

/-- `sorted(kwargs.items())` as an insertion sort by keyword name. -/
def sortKwargs : List (String × String) → List (String × String)
  | [] => []
  | p :: rest => insertSorted p (sortKwargs rest)

/-- `_make_cache_key(prefix, args, kwargs)`: the key parts are the prefix,
then `str(arg)` for each positional argument in order, then `f"{k}={v}"`
for each keyword argument sorted by name, joined with `":"`.  Positional
arguments enter the model already as their string representations. -/
def _make_cache_key (pfx : String) (args : List String)
    (kwargs : List (String × String)) : String :=
  joinColon ([pfx] ++ args ++ (sortKwargs kwargs).map (fun kv => kv.1 ++ "=" ++ kv.2))

/-- Result of one call through the wrapper produced by `cached`:
the value returned (or exception propagated), the store afterwards, and
whether the wrapped function `fn` was invoked during this call. -/
structure CallResult (E V : Type) where
  result : Except E V
  store : Store V
  invoked : Bool

/-- One invocation of the wrapper built by `cached` (cache.py lines 61-88),
with the cache key already derived.  `fnResult` is what `fn(*args, **kwargs)`
would return (or raise) if invoked; `now` models `time.time()`.
If caching is disabled the function is called directly and the store is
untouched.  Otherwise: a stored entry with `now - timestamp <
cache_ttl_seconds` is returned without calling `fn`; an expired entry is
deleted; on miss or expiry `fn` is called and, only if it returns normally,
`(now, result)` is stored under the key. -/
def wrapper {E V : Type} (cfg : Config) (now : ℚ) (key : String)
    (fnResult : Except E V) (store : Store V) : CallResult E V :=
  if cfg.enable_response_caching = false then
    { result := fnResult, store := store, invoked := true }
  else
    let checked : Option V × Store V :=
      match lookup store key with
      | some e =>
        if now - e.timestamp < cfg.cache_ttl_seconds then (some e.value, store)
        else (none, eraseKey store key)
      | none => (none, store)
    match checked with
    | (some v, s) => { result := Except.ok v, store := s, invoked := false }
    | (none, s) =>
      match fnResult with
      | Except.ok v =>
        { result := Except.ok v, store := insertKey s key ⟨now, v⟩, invoked := true }
      | Except.error err => { result := Except.error err, store := s, invoked := true }

/-- One call in a trace: the config in effect (fetched fresh by the wrapper
on every call), the current time, and the call arguments. -/
structure Call where
  cfg : Config
  now : ℚ
  args : List String
  kwargs : List (String × String)

/-- Run a sequence of calls to one wrapped operation `f` under key prefix
`pfx`, threading the store; returns the final store, the total number of
times `f` was invoked, and the list of per-call results. -/
def runCalls {E V : Type} (pfx : String)
    (f : List String → List (String × String) → Except E V) :
    List Call → Store V → Store V × Nat × List (Except E V)
  | [], store => (store, 0, [])
  | c :: rest, store =>
    let key := _make_cache_key pfx c.args c.kwargs
    let r := wrapper c.cfg c.now key (f c.args c.kwargs) store
    let out := runCalls pfx f rest r.store
    (out.1, (if r.invoked then 1 else 0) + out.2.1, r.result :: out.2.2)

/-- `clear_cache()`: under lock, record the size, clear the dict, return
the size. -/
def clear_cache {V : Type} (store : Store V) : Store V × Nat :=
  ([], store.length)

/-- Staleness test used by `clear_expired` and `cache_stats`:
`now - cached_time >= config.cache_ttl_seconds`. -/
def isExpired (cfg : Config) (now : ℚ) (kv : String × CacheEntry V) : Bool :=
  decide (cfg.cache_ttl_seconds ≤ now - kv.2.timestamp)

/-- `clear_expired()`: collect the keys of entries whose age is ≥ the
current config TTL, delete each collected key, and return how many were
deleted. -/
def clear_expired {V : Type} (cfg : Config) (now : ℚ) (store : Store V) :
    Store V × Nat :=
  let expired_keys := (store.filter (isExpired cfg now)).map Prod.fst
  (expired_keys.foldl (fun s k => eraseKey s k) store, expired_keys.length)

/-- The dict returned by `cache_stats()`. -/
structure Stats where
  total_entries : Nat
  expired_entries : Nat
  active_entries : Nat
  caching_enabled : Bool
  ttl_seconds : ℚ
deriving DecidableEq

/-- `cache_stats()`: total entry count, count of entries expired under the
current TTL, active = total - expired, the enable flag and the TTL.  It
only reads the store. -/
def cache_stats {V : Type} (cfg : Config) (now : ℚ) (store : Store V) : Stats :=
  let total := store.length
  let expired := (store.filter (isExpired cfg now)).length
  { total_entries := total
    expired_entries := expired
    active_entries := total - expired
    caching_enabled := cfg.enable_response_caching
    ttl_seconds := cfg.cache_ttl_seconds }

/-- Python's `pattern in key`: plain substring containment. -/
def substrB (pat s : String) : Bool :=
  decide (pat.data <:+: s.data)

/-- `invalidate(pattern)`: collect every key containing `pattern` as a
substring, delete each collected key, return how many keys were collected. -/
def invalidate {V : Type} (pat : String) (store : Store V) : Store V × Nat :=
  let keys_to_remove := (store.map Prod.fst).filter (fun key => substrB pat key)
  (keys_to_remove.foldl (fun s k => eraseKey s k) store, keys_to_remove.length)

/-! ### Store lemmas -/

theorem lookup_insertKey_self {V : Type} (store : Store V) (key : String)
    (e : CacheEntry V) : lookup (insertKey store key e) key = some e := by
  simp [lookup, insertKey, List.find?]

theorem lookup_eraseKey_self {V : Type} (store : Store V) (key : String) :
    lookup (eraseKey store key) key = none := by
  simp only [lookup, Option.map_eq_none', List.find?_eq_none]
  intro kv hkv
  have := List.mem_filter.mp hkv
  simp only [bne_iff_ne, ne_eq] at this
  simpa [beq_iff_eq] using this.2

theorem eraseKey_of_lookup_none {V : Type} (store : Store V) (key : String)
    (h : lookup store key = none) : eraseKey store key = store := by
  simp only [lookup, Option.map_eq_none', List.find?_eq_none] at h
  apply List.filter_eq_self.mpr
  intro kv hkv
  have := h kv hkv
  simpa [bne_iff_ne, beq_iff_eq] using this

/-- Deleting a list of keys one by one filters out exactly the pairs whose
key occurs in that list. -/
theorem foldl_eraseKey_eq_filter {V : Type} (keys : List String) (store : Store V) :
    keys.foldl (fun s k => eraseKey s k) store
      = store.filter (fun kv => decide (kv.1 ∉ keys)) := by
  induction keys generalizing store with
  | nil => simp
  | cons k ks ih =>
    rw [List.foldl_cons, ih]
    simp only [eraseKey, List.filter_filter]
    apply List.filter_congr
    intro kv _
    by_cases h1 : kv.1 = k <;> by_cases h2 : kv.1 ∈ ks <;> simp [h1, h2]

/-! ### Wrapper case lemmas -/

theorem wrapper_disabled {E V : Type} (cfg : Config) (now : ℚ) (key : String)
    (r : Except E V) (store : Store V)
    (h : cfg.enable_response_caching = false) :
    wrapper cfg now key r store = ⟨r, store, true⟩ := by
  simp [wrapper, h]

theorem wrapper_hit {E V : Type} (cfg : Config) (now : ℚ) (key : String)
    (r : Except E V) (store : Store V) (e : CacheEntry V)
    (h : cfg.enable_response_caching = true)
    (he : lookup store key = some e)
    (hf : now - e.timestamp < cfg.cache_ttl_seconds) :
    wrapper cfg now key r store = ⟨Except.ok e.value, store, false⟩ := by
  simp [wrapper, h, he, hf]

theorem wrapper_miss_ok {E V : Type} (cfg : Config) (now : ℚ) (key : String)
    (v : V) (store : Store V)
    (h : cfg.enable_response_caching = true)
    (hm : lookup store key = none) :
    wrapper cfg now key (Except.ok (ε := E) v) store
      = ⟨Except.ok v, insertKey store key ⟨now, v⟩, true⟩ := by
  simp [wrapper, h, hm]

theorem wrapper_miss_error {E V : Type} (cfg : Config) (now : ℚ) (key : String)
    (err : E) (store : Store V)
    (h : cfg.enable_response_caching = true)
    (hm : lookup store key = none) :
    wrapper cfg now key (Except.error (α := V) err) store
      = ⟨Except.error err, store, true⟩ := by
  simp [wrapper, h, hm]

theorem wrapper_expired_ok {E V : Type} (cfg : Config) (now : ℚ) (key : String)
    (v : V) (store : Store V) (e : CacheEntry V)
    (h : cfg.enable_response_caching = true)
    (he : lookup store key = some e)
    (hx : ¬ now - e.timestamp < cfg.cache_ttl_seconds) :
    wrapper cfg now key (Except.ok (ε := E) v) store
      = ⟨Except.ok v, insertKey (eraseKey store key) key ⟨now, v⟩, true⟩ := by
  simp [wrapper, h, he, hx]

theorem wrapper_expired_error {E V : Type} (cfg : Config) (now : ℚ) (key : String)
    (err : E) (store : Store V) (e : CacheEntry V)
    (h : cfg.enable_response_caching = true)
    (he : lookup store key = some e)
    (hx : ¬ now - e.timestamp < cfg.cache_ttl_seconds) :
    wrapper cfg now key (Except.error (α := V) err) store
      = ⟨Except.error err, eraseKey store key, true⟩ := by
  simp [wrapper, h, he, hx]

/-! ### Maintenance-operation characterizations -/

theorem invalidate_eq_filter {V : Type} (pat : String) (store : Store V) :
    invalidate pat store
      = (store.filter (fun kv => !substrB pat kv.1),
         (store.filter (fun kv => substrB pat kv.1)).length) := by
  unfold invalidate
  dsimp only
  have h1 : ((store.map Prod.fst).filter (fun key => substrB pat key)).foldl
      (fun s k => eraseKey s k) store
      = store.filter (fun kv => !substrB pat kv.1) := by
    rw [foldl_eraseKey_eq_filter]
    apply List.filter_congr
    intro kv hkv
    have hmem : kv.1 ∈ store.map Prod.fst := List.mem_map.mpr ⟨kv, hkv, rfl⟩
    by_cases hs : substrB pat kv.1 = true
    · have : kv.1 ∈ (store.map Prod.fst).filter (fun key => substrB pat key) :=
        List.mem_filter.mpr ⟨hmem, hs⟩
      simp [this, hs]
    · have : kv.1 ∉ (store.map Prod.fst).filter (fun key => substrB pat key) := by
        intro hc
        exact hs (List.mem_filter.mp hc).2
      simp [this, Bool.eq_false_iff.mpr hs]
  have h2 : ((store.map Prod.fst).filter (fun key => substrB pat key)).length
      = (store.filter (fun kv => substrB pat kv.1)).length := by
    rw [List.filter_map, List.length_map]
    rfl
  rw [h1, h2]

theorem clear_expired_eq_filter {V : Type} (cfg : Config) (now : ℚ)
    (store : Store V) (hnd : (store.map Prod.fst).Nodup) :
    clear_expired cfg now store
      = (store.filter (fun kv => !isExpired cfg now kv),
         (store.filter (isExpired cfg now)).length) := by
  unfold clear_expired
  dsimp only
  have h1 : ((store.filter (isExpired cfg now)).map Prod.fst).foldl
      (fun s k => eraseKey s k) store
      = store.filter (fun kv => !isExpired cfg now kv) := by
    rw [foldl_eraseKey_eq_filter]
    apply List.filter_congr
    intro kv hkv
    by_cases hs : isExpired cfg now kv = true
    · have : kv.1 ∈ (store.filter (isExpired cfg now)).map Prod.fst :=
        List.mem_map.mpr ⟨kv, List.mem_filter.mpr ⟨hkv, hs⟩, rfl⟩
      simp [this, hs]
    · have : kv.1 ∉ (store.filter (isExpired cfg now)).map Prod.fst := by
        intro hc
        rcases List.mem_map.mp hc with ⟨kv', hkv', hfst⟩
        have hkv's : kv' ∈ store := (List.mem_filter.mp hkv').1
        have : kv' = kv := List.inj_on_of_nodup_map hnd hkv's hkv hfst
        exact hs (this ▸ (List.mem_filter.mp hkv').2)
      simp [this, Bool.eq_false_iff.mpr hs]
  rw [h1, List.length_map]

/-! ### Claim theorems -/

/-- C1: with caching enabled and a TTL large enough that no expiry occurs
(the two calls are less than one TTL apart), two consecutive calls of a
wrapped operation with identical arguments invoke the underlying operation
exactly once: the first call computes and stores the value, the second
finds the key present with age below the TTL and returns the stored value
without invoking the operation, and both calls return the same value. -/
theorem C1_hit_suppresses_recomputation {V : Type}
    (f : List String → List (String × String) → V) (pfx : String)
    (args : List String) (kwargs : List (String × String))
    (t1 t2 ttl : ℚ) (store : Store V)
    (hmiss : lookup store (_make_cache_key pfx args kwargs) = none)
    (hfresh : t2 - t1 < ttl) :
    runCalls pfx (fun a k => Except.ok (ε := Unit) (f a k))
        [⟨⟨true, ttl⟩, t1, args, kwargs⟩, ⟨⟨true, ttl⟩, t2, args, kwargs⟩] store
      = (insertKey store (_make_cache_key pfx args kwargs) ⟨t1, f args kwargs⟩,
         1, [Except.ok (f args kwargs), Except.ok (f args kwargs)]) := by
  have h1 := wrapper_miss_ok (E := Unit) ⟨true, ttl⟩ t1
      (_make_cache_key pfx args kwargs) (f args kwargs) store rfl hmiss
  have h2 := wrapper_hit ⟨true, ttl⟩ t2
      (_make_cache_key pfx args kwargs) (Except.ok (ε := Unit) (f args kwargs))
      (insertKey store (_make_cache_key pfx args kwargs) ⟨t1, f args kwargs⟩)
      ⟨t1, f args kwargs⟩ rfl
      (lookup_insertKey_self _ _ _) hfresh
  simp [runCalls, h1, h2]

/-- Witness for C1 at a concrete input: operation constantly `7`, prefix
`"op"`, argument `"a"`, calls at times 0 and 1 with TTL 30, empty store. -/
theorem C1_hit_suppresses_recomputation_w :
    runCalls "op" (fun _ _ => Except.ok (ε := Unit) (7 : Nat))
        [⟨⟨true, 30⟩, 0, ["a"], []⟩, ⟨⟨true, 30⟩, 1, ["a"], []⟩] []
      = ([("op:a", ⟨0, 7⟩)], 1, [Except.ok 7, Except.ok 7]) := by
  have h := C1_hit_suppresses_recomputation (fun _ _ => (7 : Nat)) "op" ["a"] []
      0 1 30 [] rfl (by norm_num)
  simpa using h

/-- A call on a missing key always invokes the wrapped function when
caching is enabled, whether the function returns or raises. -/
theorem wrapper_miss_invoked {E V : Type} (cfg : Config) (now : ℚ)
    (key : String) (r : Except E V) (store : Store V)
    (h : cfg.enable_response_caching = true)
    (hm : lookup store key = none) :
    (wrapper cfg now key r store).invoked = true := by
  cases r with
  | ok v => rw [wrapper_miss_ok cfg now key v store h hm]
  | error err => rw [wrapper_miss_error cfg now key err store h hm]

/-- C2: a stored entry is treated as valid iff
`now - entry.timestamp < cache_ttl_seconds`, judged at lookup time with
the TTL of the config fetched by that very call: a fresh entry is
returned without invoking the operation, while an entry failing the
check is treated as absent, physically deleted, and the operation is
invoked again.  Concretely, with TTL = 1 second two identical calls
1.1 seconds apart each invoke the operation, and a TTL lowered from 100
to 1 between write and read governs the read. -/
theorem C2_entry_validity_ttl_at_read :
    (∀ (V : Type) (cfg : Config) (now : ℚ) (key : String) (store : Store V)
        (e : CacheEntry V) (v : V),
      cfg.enable_response_caching = true →
      lookup store key = some e →
      now - e.timestamp < cfg.cache_ttl_seconds →
      wrapper cfg now key (Except.ok (ε := Unit) v) store
        = ⟨Except.ok e.value, store, false⟩)
    ∧
    (∀ (V : Type) (cfg : Config) (now : ℚ) (key : String) (store : Store V)
        (e : CacheEntry V) (v : V),
      cfg.enable_response_caching = true →
      lookup store key = some e →
      ¬ now - e.timestamp < cfg.cache_ttl_seconds →
      wrapper cfg now key (Except.ok (ε := Unit) v) store
        = ⟨Except.ok v, insertKey (eraseKey store key) key ⟨now, v⟩, true⟩)
    ∧
    (runCalls "op" (fun _ _ => Except.ok (ε := Unit) (5 : Nat))
        [⟨⟨true, 1⟩, 0, ["a"], []⟩, ⟨⟨true, 1⟩, 11 / 10, ["a"], []⟩] []).2.1 = 2
    ∧
    (runCalls "op" (fun _ _ => Except.ok (ε := Unit) (5 : Nat))
        [⟨⟨true, 100⟩, 0, ["a"], []⟩, ⟨⟨true, 1⟩, 5, ["a"], []⟩] []).2.1 = 2 := by
  refine ⟨?_, ?_, ?_, ?_⟩
  · intro V cfg now key store e v h he hf
    exact wrapper_hit cfg now key _ store e h he hf
  · intro V cfg now key store e v h he hx
    exact wrapper_expired_ok cfg now key v store e h he hx
  · have h1 := wrapper_miss_ok (E := Unit) ⟨true, 1⟩ 0
        (_make_cache_key "op" ["a"] []) (5 : Nat) [] rfl rfl
    have h2 := wrapper_expired_ok (E := Unit) ⟨true, 1⟩ (11 / 10)
        (_make_cache_key "op" ["a"] []) (5 : Nat)
        (insertKey [] (_make_cache_key "op" ["a"] []) ⟨0, 5⟩) ⟨0, 5⟩ rfl
        (lookup_insertKey_self _ _ _) (by norm_num)
    simp [runCalls, h1, h2]
  · have h1 := wrapper_miss_ok (E := Unit) ⟨true, 100⟩ 0
        (_make_cache_key "op" ["a"] []) (5 : Nat) [] rfl rfl
    have h2 := wrapper_expired_ok (E := Unit) ⟨true, 1⟩ 5
        (_make_cache_key "op" ["a"] []) (5 : Nat)
        (insertKey [] (_make_cache_key "op" ["a"] []) ⟨0, 5⟩) ⟨0, 5⟩ rfl
        (lookup_insertKey_self _ _ _) (by norm_num)
    simp [runCalls, h1, h2]

/-- Witness for C2 at a concrete input: the expired branch of the second
conjunct with TTL 1, a single stored entry aged 1.1 seconds. -/
theorem C2_entry_validity_ttl_at_read_w :
    wrapper ⟨true, 1⟩ (11 / 10) "k" (Except.ok (ε := Unit) (5 : Nat))
        [("k", ⟨0, 4⟩)]
      = ⟨Except.ok 5, insertKey (eraseKey [("k", ⟨0, 4⟩)] "k") "k" ⟨11 / 10, 5⟩,
         true⟩ :=
  C2_entry_validity_ttl_at_read.2.1 Nat ⟨true, 1⟩ (11 / 10) "k"
    [("k", ⟨0, 4⟩)] ⟨0, 4⟩ 5 rfl rfl (by norm_num)

/-- When every call of a trace runs with caching disabled the wrapped
operation is invoked on every call and the store is never touched. -/
theorem runCalls_all_disabled {E V : Type} (pfx : String)
    (f : List String → List (String × String) → Except E V) :
    ∀ (calls : List Call) (store : Store V),
      (∀ c ∈ calls, c.cfg.enable_response_caching = false) →
      runCalls pfx f calls store
        = (store, calls.length, calls.map (fun c => f c.args c.kwargs)) := by
  intro calls
  induction calls with
  | nil => intro store _; simp [runCalls]
  | cons c cs ih =>
    intro store h
    have hc := h c (List.mem_cons_self c cs)
    have hrest : ∀ c' ∈ cs, c'.cfg.enable_response_caching = false :=
      fun c' hc' => h c' (List.mem_cons_of_mem c hc')
    simp [runCalls, wrapper_disabled _ _ _ _ _ hc, ih store hrest, Nat.add_comm]

/-- C3: while `enable_response_caching` is false every call invokes the
wrapped operation exactly once with the given arguments, returns its
result unchanged, and performs no cache-store interaction (the store is
identical before and after), no matter how often identical arguments are
repeated: a trace of n disabled calls yields n invocations, the direct
results, and the untouched store. -/
theorem C3_disabled_passthrough :
    (∀ (E V : Type) (cfg : Config) (now : ℚ) (key : String)
        (r : Except E V) (store : Store V),
      cfg.enable_response_caching = false →
      wrapper cfg now key r store = ⟨r, store, true⟩)
    ∧
    (∀ (E V : Type) (pfx : String)
        (f : List String → List (String × String) → Except E V)
        (calls : List Call) (store : Store V),
      (∀ c ∈ calls, c.cfg.enable_response_caching = false) →
      runCalls pfx f calls store
        = (store, calls.length, calls.map (fun c => f c.args c.kwargs))) := by
  refine ⟨?_, ?_⟩
  · intro E V cfg now key r store h
    exact wrapper_disabled cfg now key r store h
  · intro E V pfx f calls store h
    exact runCalls_all_disabled pfx f calls store h

/-- Witness for C3 at a concrete input: two disabled calls with the same
argument `"a"` both invoke the operation (two invocations, same result,
store untouched). -/
theorem C3_disabled_passthrough_w :
    runCalls "op" (fun a _ => Except.ok (ε := Unit) a)
        [⟨⟨false, 30⟩, 0, ["a"], []⟩, ⟨⟨false, 30⟩, 1, ["a"], []⟩] []
      = ([], 2, [Except.ok ["a"], Except.ok ["a"]]) := by
  have h := C3_disabled_passthrough.2 Unit (List String) "op"
      (fun a _ => Except.ok a)
      [⟨⟨false, 30⟩, 0, ["a"], []⟩, ⟨⟨false, 30⟩, 1, ["a"], []⟩] []
      (by intro c hc; simp only [List.mem_cons, List.not_mem_nil, or_false] at hc
          rcases hc with rfl | rfl <;> rfl)
  simpa using h

/-- C4: whenever the wrapped operation actually runs and raises, the
wrapper propagates that exact exception, raises nothing of its own, and
stores nothing under the derived key: with caching enabled the store ends
up with no entry under the key (an expired entry is deleted, nothing is
written back), so an immediately following identical call invokes the
operation again; with caching disabled the store is untouched and the
exception still propagates. -/
theorem C4_error_propagation :
    (∀ (E V : Type) (cfg : Config) (now : ℚ) (key : String) (err : E)
        (store : Store V),
      (wrapper cfg now key (Except.error (α := V) err) store).invoked = true →
      (wrapper cfg now key (Except.error (α := V) err) store).result
        = Except.error err)
    ∧
    (∀ (E V : Type) (cfg : Config) (now : ℚ) (key : String) (err : E)
        (store : Store V),
      cfg.enable_response_caching = true →
      (wrapper cfg now key (Except.error (α := V) err) store).invoked = true →
      (wrapper cfg now key (Except.error (α := V) err) store).store
          = eraseKey store key
        ∧ lookup (wrapper cfg now key (Except.error (α := V) err) store).store
            key = none)
    ∧
    (∀ (E V : Type) (cfg : Config) (now : ℚ) (key : String) (err : E)
        (store : Store V),
      cfg.enable_response_caching = false →
      wrapper cfg now key (Except.error (α := V) err) store
        = ⟨Except.error err, store, true⟩)
    ∧
    (∀ (E V : Type) (cfg : Config) (now now2 : ℚ) (key : String) (err : E)
        (r2 : Except E V) (store : Store V),
      cfg.enable_response_caching = true →
      (wrapper cfg now key (Except.error (α := V) err) store).invoked = true →
      (wrapper cfg now2 key r2
        (wrapper cfg now key (Except.error (α := V) err) store).store).invoked
        = true) := by
  have hstore : ∀ (E V : Type) (cfg : Config) (now : ℚ) (key : String) (err : E)
      (store : Store V),
      cfg.enable_response_caching = true →
      (wrapper cfg now key (Except.error (α := V) err) store).invoked = true →
      (wrapper cfg now key (Except.error (α := V) err) store).store
          = eraseKey store key
        ∧ lookup (wrapper cfg now key (Except.error (α := V) err) store).store
            key = none := by
    intro E V cfg now key err store hen hinv
    cases hl : lookup store key with
    | none =>
      rw [wrapper_miss_error cfg now key err store hen hl]
      exact ⟨(eraseKey_of_lookup_none store key hl).symm, hl⟩
    | some e =>
      by_cases hf : now - e.timestamp < cfg.cache_ttl_seconds
      · rw [wrapper_hit cfg now key _ store e hen hl hf] at hinv
        simp at hinv
      · rw [wrapper_expired_error cfg now key err store e hen hl hf]
        exact ⟨rfl, lookup_eraseKey_self store key⟩
  refine ⟨?_, hstore, ?_, ?_⟩
  · intro E V cfg now key err store hinv
    by_cases hen : cfg.enable_response_caching = true
    · cases hl : lookup store key with
      | none => rw [wrapper_miss_error cfg now key err store hen hl]
      | some e =>
        by_cases hf : now - e.timestamp < cfg.cache_ttl_seconds
        · rw [wrapper_hit cfg now key _ store e hen hl hf] at hinv
          simp at hinv
        · rw [wrapper_expired_error cfg now key err store e hen hl hf]
    · rw [wrapper_disabled cfg now key _ store (by simpa using hen)]
  · intro E V cfg now key err store hen
    exact wrapper_disabled cfg now key _ store hen
  · intro E V cfg now now2 key err r2 store hen hinv
    exact wrapper_miss_invoked cfg now2 key r2 _ hen
      ((hstore E V cfg now key err store hen hinv).2)

/-- Witness for C4 at a concrete input: an error raised on a miss leaves
the empty store without the key and the next call invokes again. -/
theorem C4_error_propagation_w :
    (wrapper ⟨true, 30⟩ 0 "k" (Except.error (α := Nat) "boom") []).store
        = eraseKey [] "k"
      ∧ lookup (wrapper ⟨true, 30⟩ 0 "k"
          (Except.error (α := Nat) "boom") []).store "k" = none :=
  C4_error_propagation.2.1 String Nat ⟨true, 30⟩ 0 "k" "boom" [] rfl rfl

/-- C5 counterexample: the key deriver is not injective in the positional
argument values.  With the same prefix `"f"`, the single argument `"a:b"`
and the two arguments `"a"`, `"b"` are different positional argument
lists yet produce the identical key `"f:a:b"`, so a difference in
positional argument values does not always produce a different key. -/
theorem C5_key_discrimination_cex :
    _make_cache_key "f" ["a:b"] [] = _make_cache_key "f" ["a", "b"] []
      ∧ (["a:b"] : List String) ≠ ["a", "b"] :=
  ⟨rfl, by decide⟩

/-- C5 (amended): key discrimination is best-effort, up to collisions of
the colon-joined string representations; in the collision-free single
argument case it is exact: with the same prefix, two different single
positional argument values always produce different keys, and with
caching enabled, calling a wrapped operation with argument `"a"`, then
`"b"`, then `"a"` again invokes the underlying operation exactly twice,
the third call being a hit returning the first call's value. -/
theorem C5_key_discrimination_amended :
    (∀ p a b : String, a ≠ b →
      _make_cache_key p [a] [] ≠ _make_cache_key p [b] [])
    ∧
    (runCalls "op" (fun a _ => Except.ok (ε := Unit) a)
        [⟨⟨true, 30⟩, 0, ["a"], []⟩, ⟨⟨true, 30⟩, 1, ["b"], []⟩,
         ⟨⟨true, 30⟩, 2, ["a"], []⟩] []).2.1 = 2
    ∧
    (runCalls "op" (fun a _ => Except.ok (ε := Unit) a)
        [⟨⟨true, 30⟩, 0, ["a"], []⟩, ⟨⟨true, 30⟩, 1, ["b"], []⟩,
         ⟨⟨true, 30⟩, 2, ["a"], []⟩] []).2.2
      = [Except.ok ["a"], Except.ok ["b"], Except.ok ["a"]] := by
  have habc :
      runCalls "op" (fun a _ => Except.ok (ε := Unit) a)
        [⟨⟨true, 30⟩, 0, ["a"], []⟩, ⟨⟨true, 30⟩, 1, ["b"], []⟩,
         ⟨⟨true, 30⟩, 2, ["a"], []⟩] []
      = (insertKey (insertKey [] (_make_cache_key "op" ["a"] []) ⟨0, ["a"]⟩)
           (_make_cache_key "op" ["b"] []) ⟨1, ["b"]⟩, 2,
         [Except.ok ["a"], Except.ok ["b"], Except.ok ["a"]]) := by
    have h1 := wrapper_miss_ok (E := Unit) ⟨true, 30⟩ 0
        (_make_cache_key "op" ["a"] []) (["a"] : List String) [] rfl rfl
    have h2 := wrapper_miss_ok (E := Unit) ⟨true, 30⟩ 1
        (_make_cache_key "op" ["b"] []) (["b"] : List String)
        (insertKey [] (_make_cache_key "op" ["a"] []) ⟨0, ["a"]⟩) rfl
        (by decide)
    have h3 := wrapper_hit ⟨true, 30⟩ 2
        (_make_cache_key "op" ["a"] []) (Except.ok (ε := Unit) (["a"] : List String))
        (insertKey (insertKey [] (_make_cache_key "op" ["a"] []) ⟨0, ["a"]⟩)
          (_make_cache_key "op" ["b"] []) ⟨1, ["b"]⟩)
        ⟨0, ["a"]⟩ rfl (by decide) (by norm_num)
    simp [runCalls, h1, h2, h3]
  refine ⟨?_, ?_, ?_⟩
  · intro p a b hne h
    have h' : p ++ ":" ++ a = p ++ ":" ++ b := h
    apply hne
    have hd := congrArg String.data h'
    rw [String.data_append, String.data_append, String.data_append,
        String.data_append] at hd
    exact String.ext (List.append_cancel_left hd)
  · rw [habc]
  · rw [habc]

/-- Witness for C5 (amended) at a concrete input: arguments `"a"` and
`"b"` give different keys under prefix `"p"`. -/
theorem C5_key_discrimination_amended_w :
    _make_cache_key "p" ["a"] [] ≠ _make_cache_key "p" ["b"] [] :=
  C5_key_discrimination_amended.1 "p" "a" "b" (by decide)

/-- C6: `clear_expired` removes exactly the entries whose age at call time
is at least the current config TTL, leaves every fresher entry present,
and returns the number of entries removed; on a store with one entry aged
beyond a 5-second TTL and one fresh entry it removes only the stale one,
returns 1, and the fresh entry remains. -/
theorem C6_clear_expired_removes_stale :
    (∀ (V : Type) (cfg : Config) (now : ℚ) (store : Store V),
      (store.map Prod.fst).Nodup →
      clear_expired cfg now store
        = (store.filter (fun kv => !isExpired cfg now kv),
           (store.filter (isExpired cfg now)).length))
    ∧
    clear_expired ⟨true, 5⟩ 10
        [("old", (⟨0, 1⟩ : CacheEntry Nat)), ("new", ⟨9, 2⟩)]
      = ([("new", ⟨9, 2⟩)], 1) := by
  have e1 : isExpired ⟨true, 5⟩ 10 ("old", (⟨0, 1⟩ : CacheEntry Nat)) = true := by
    simp only [isExpired, decide_eq_true_eq]
    norm_num
  have e2 : isExpired ⟨true, 5⟩ 10 ("new", (⟨9, 2⟩ : CacheEntry Nat)) = false := by
    simp only [isExpired, decide_eq_false_iff_not]
    norm_num
  refine ⟨?_, ?_⟩
  · intro V cfg now store hnd
    exact clear_expired_eq_filter cfg now store hnd
  · rw [clear_expired_eq_filter ⟨true, 5⟩ 10 _ (by decide)]
    simp [List.filter_cons, e1, e2]

/-- Witness for C6 at a concrete input: a single stale entry is removed
and counted. -/
theorem C6_clear_expired_removes_stale_w :
    clear_expired ⟨true, 5⟩ 10 [("a", (⟨0, 1⟩ : CacheEntry Nat))] = ([], 1) := by
  have e1 : isExpired ⟨true, 5⟩ 10 ("a", (⟨0, 1⟩ : CacheEntry Nat)) = true := by
    simp only [isExpired, decide_eq_true_eq]
    norm_num
  have h := C6_clear_expired_removes_stale.1 Nat ⟨true, 5⟩ 10
      [("a", ⟨0, 1⟩)] (by decide)
  rw [h]
  simp [List.filter_cons, e1]

/-- C7: `invalidate(pattern)` removes exactly the entries whose key
contains the pattern as a plain substring and returns the number removed;
it never fails, a pattern matching nothing removes nothing and returns
zero, and on keys `"workbenches:ns1"`, `"workbenches:ns2"`,
`"projects:all"`, invalidating `"workbenches"` removes exactly the first
two and returns 2. -/
theorem C7_invalidate_substring :
    (∀ (V : Type) (pat : String) (store : Store V),
      invalidate pat store
        = (store.filter (fun kv => !substrB pat kv.1),
           (store.filter (fun kv => substrB pat kv.1)).length))
    ∧
    (∀ (V : Type) (pat : String) (store : Store V),
      (∀ kv ∈ store, substrB pat kv.1 = false) →
      invalidate pat store = (store, 0))
    ∧
    invalidate "workbenches"
        [("workbenches:ns1", (⟨0, 1⟩ : CacheEntry Nat)),
         ("workbenches:ns2", ⟨0, 2⟩), ("projects:all", ⟨0, 3⟩)]
      = ([("projects:all", ⟨0, 3⟩)], 2) := by
  refine ⟨?_, ?_, ?_⟩
  · intro V pat store
    exact invalidate_eq_filter pat store
  · intro V pat store h
    rw [invalidate_eq_filter pat store]
    have hkeep : store.filter (fun kv => !substrB pat kv.1) = store :=
      List.filter_eq_self.mpr (fun kv hkv => by simp [h kv hkv])
    have hgone : store.filter (fun kv => substrB pat kv.1) = [] :=
      List.filter_eq_nil_iff.mpr (fun kv hkv => by simp [h kv hkv])
    rw [hkeep, hgone]
    rfl
  · decide

/-- Witness for C7 at a concrete input: a pattern matching no key removes
nothing and returns zero. -/
theorem C7_invalidate_substring_w :
    invalidate "zzz" [("a", (⟨0, 1⟩ : CacheEntry Nat))] = ([("a", ⟨0, 1⟩)], 0) :=
  C7_invalidate_substring.2.1 Nat "zzz" [("a", ⟨0, 1⟩)] (by decide)

/-- Every joined key starting from part `s` has `s.data` as a prefix of
its character data. -/
theorem joinColon_data_cons (s : String) (rest : List String) :
    ∃ t, (joinColon (s :: rest)).data = s.data ++ t := by
  cases rest with
  | nil => exact ⟨[], by simp [joinColon]⟩
  | cons r rs =>
    refine ⟨(":" : String).data ++ (joinColon (r :: rs)).data, ?_⟩
    simp [joinColon, String.data_append, List.append_assoc]

/-- No key that contains the pattern as a substring survives
`invalidate`. -/
theorem lookup_invalidate_none {V : Type} (pat key : String) (store : Store V)
    (h : substrB pat key = true) :
    lookup (invalidate pat store).1 key = none := by
  rw [invalidate_eq_filter]
  simp only [lookup, Option.map_eq_none', List.find?_eq_none]
  intro kv hkv
  have hm := List.mem_filter.mp hkv
  intro hbeq
  have : kv.1 = key := by simpa [beq_iff_eq] using hbeq
  rw [this, h] at hm
  simp at hm

/-- C8: `cache_stats` reports the total entry count, the count of entries
expired under the current TTL (age ≥ TTL), the count of active entries
with active = total − expired (equal to the number of fresh entries), the
enable flag and the TTL in effect; it reads the store without mutating
it, so on a store with one fresh and one stale entry it reports
total = 2, expired = 1, active = 1 and a `clear_expired` of that same
store still finds and removes the stale entry. -/
theorem C8_cache_stats_snapshot :
    (∀ (V : Type) (cfg : Config) (now : ℚ) (store : Store V),
      (cache_stats cfg now store).total_entries = store.length
      ∧ (cache_stats cfg now store).expired_entries
          = (store.filter (isExpired cfg now)).length
      ∧ (cache_stats cfg now store).active_entries
          = (store.filter (fun kv => !isExpired cfg now kv)).length
      ∧ (cache_stats cfg now store).caching_enabled = cfg.enable_response_caching
      ∧ (cache_stats cfg now store).ttl_seconds = cfg.cache_ttl_seconds)
    ∧
    (cache_stats ⟨true, 5⟩ 10
        [("old", (⟨0, 1⟩ : CacheEntry Nat)), ("new", ⟨9, 2⟩)]
      = ⟨2, 1, 1, true, 5⟩
    ∧ clear_expired ⟨true, 5⟩ 10
        [("old", (⟨0, 1⟩ : CacheEntry Nat)), ("new", ⟨9, 2⟩)]
      = ([("new", ⟨9, 2⟩)], 1)) := by
  have e1 : isExpired ⟨true, 5⟩ 10 ("old", (⟨0, 1⟩ : CacheEntry Nat)) = true := by
    simp only [isExpired, decide_eq_true_eq]
    norm_num
  have e2 : isExpired ⟨true, 5⟩ 10 ("new", (⟨9, 2⟩ : CacheEntry Nat)) = false := by
    simp only [isExpired, decide_eq_false_iff_not]
    norm_num
  refine ⟨?_, ?_, ?_⟩
  · intro V cfg now store
    refine ⟨rfl, rfl, ?_, rfl, rfl⟩
    have hsplit := List.length_eq_length_filter_add (l := store) (isExpired cfg now)
    show store.length - (store.filter (isExpired cfg now)).length
        = (store.filter (fun kv => !isExpired cfg now kv)).length
    omega
  · rw [cache_stats]
    simp [List.filter_cons, e1, e2]
  · rw [clear_expired_eq_filter ⟨true, 5⟩ 10 _ (by decide)]
    simp [List.filter_cons, e1, e2]

/-- C9: every cache key derived from prefix `p` begins with `p` (the key
is `p` joined by `":"` with the argument strings), so `p` occurs as a
substring of every key a wrapper with that prefix ever stores, and
consequently `invalidate p` removes every entry cached under a key
derived from prefix `p`. -/
theorem C9_invalidate_covers_derived_keys :
    (∀ (p : String) (args : List String) (kwargs : List (String × String)),
      substrB p (_make_cache_key p args kwargs) = true)
    ∧
    (∀ (V : Type) (p : String) (args : List String)
        (kwargs : List (String × String)) (store : Store V),
      lookup (invalidate p store).1 (_make_cache_key p args kwargs) = none) := by
  have hsub : ∀ (p : String) (args : List String)
      (kwargs : List (String × String)),
      substrB p (_make_cache_key p args kwargs) = true := by
    intro p args kwargs
    apply decide_eq_true
    obtain ⟨t, ht⟩ := joinColon_data_cons p
      (args ++ (sortKwargs kwargs).map (fun kv => kv.1 ++ "=" ++ kv.2))
    exact ⟨[], t, by simpa using ht.symm⟩
  refine ⟨hsub, ?_⟩
  intro V p args kwargs store
  exact lookup_invalidate_none p _ store (hsub p args kwargs)

/-- C10: invalidating with the empty pattern matches every key: it
removes all entries and returns the prior store size, which is exactly
the behaviour of `clear_cache`. -/
theorem C10_invalidate_empty_is_clear_cache :
    ∀ (V : Type) (store : Store V), invalidate "" store = clear_cache store := by
  intro V store
  rw [invalidate_eq_filter, clear_cache]
  have hall : ∀ kv ∈ store, substrB "" kv.1 = true := by
    intro kv _
    exact decide_eq_true List.nil_infix
  have h1 : store.filter (fun kv => !substrB "" kv.1) = [] :=
    List.filter_eq_nil_iff.mpr (fun kv hkv => by simp [hall kv hkv])
  have h2 : store.filter (fun kv => substrB "" kv.1) = store :=
    List.filter_eq_self.mpr hall
  rw [h1, h2]

example : _make_cache_key "f" ["a"] [] = "f:a" := by rfl
example : _make_cache_key "f" ["a:b"] [] = _make_cache_key "f" ["a", "b"] [] := by rfl
example : _make_cache_key "f" [] [("k", "v"), ("a", "b")] = "f:a=b:k=v" := by decide
example : substrB "workbenches" "workbenches:ns1" = true := by decide
example : substrB "" "anything" = true := by decide

end RhoaiCache
